import Mathlib

/-!
Verification of the OpenSecure vscode-extension capture pipeline.

This file gives a shallow embedding, in Lean 4, of the core data model and
operations of the repository: the capture store (`src/data/storage.js` and its
final revision in `src/unnamed/part_005`), the ingestion endpoint
(`src/server.js`), the parser callback (`src/utils/parser.js`), and the
code-reference checksum validator (`src/extension.js`).  JavaScript objects
used as string-keyed dictionaries are embedded as association lists with
JS-object semantics (first occurrence of a key is authoritative, updates keep
key order, new keys append at the end).  Machine-level JS arithmetic
(the 32-bit truncation in the checksum) is made explicit over `Int`.
Theorems about the individual claims follow the definitions.
-/

set_option autoImplicit false

namespace Js

variable {α : Type}

/-- Membership lookup on a JS object embedded as an association list:
returns the value at the first (unique) occurrence of the key. -/
def lookup (k : String) : List (String × α) → Option α
  | [] => none
  | (k', v) :: rest => if k' = k then some v else lookup k rest

/-- Property write on a JS object: update the value in place if the key is
present, otherwise append the new key at the end (JS key-insertion order). -/
def setKey (k : String) (v : α) : List (String × α) → List (String × α)
  | [] => [(k, v)]
  | (k', v') :: rest =>
    if k' = k then (k', v) :: rest else (k', v') :: setKey k v rest

/-- Embedding of the JS `delete obj[k]` operation. -/
def eraseKey (k : String) : List (String × α) → List (String × α)
  | [] => []
  | (k', v') :: rest => if k' = k then rest else (k', v') :: eraseKey k rest

@[simp] theorem lookup_nil (k : String) : lookup k ([] : List (String × α)) = none := rfl

@[simp] theorem lookup_cons (k k' : String) (v : α) (l : List (String × α)) :
    lookup k ((k', v) :: l) = if k' = k then some v else lookup k l := rfl

@[simp] theorem setKey_nil (k : String) (v : α) : setKey k v ([] : List (String × α)) = [(k, v)] := rfl

@[simp] theorem setKey_cons (k k' : String) (v v' : α) (l : List (String × α)) :
    setKey k v ((k', v') :: l) =
      if k' = k then (k', v) :: l else (k', v') :: setKey k v l := rfl

@[simp] theorem lookup_setKey_self (k : String) (v : α) (l : List (String × α)) :
    lookup k (setKey k v l) = some v := by
  induction l with
  | nil => simp [lookup, setKey]
  | cons hd tl ih =>
    obtain ⟨k', v'⟩ := hd
    by_cases h : k' = k <;> simp [lookup, setKey, h, ih]

theorem lookup_setKey_ne (k j : String) (v : α) (l : List (String × α)) (h : j ≠ k) :
    lookup j (setKey k v l) = lookup j l := by
  induction l with
  | nil => simp [lookup, setKey, Ne.symm h]
  | cons hd tl ih =>
    obtain ⟨k', v'⟩ := hd
    by_cases hk : k' = k
    · subst hk
      simp [lookup, setKey, Ne.symm h]
    · simp [lookup, setKey, hk, ih]

end Js

/-! ## JSON values

`JSON.parse` is a JS builtin; we embed the subset of JSON the repository
actually stores and sniffs: objects, arrays, strings (with the common
single-character escapes; `\uXXXX` escapes and fractional/exponent number
forms are outside the embedding and count as parse failures), integers,
booleans and null.  Duplicate object keys follow `JSON.parse` semantics
(last occurrence wins). -/

inductive JsonVal where
  | null
  | bool (b : Bool)
  | num (n : Int)
  | str (s : String)
  | arr (elems : List JsonVal)
  | obj (fields : List (String × JsonVal))
deriving Repr

/-- Truthiness of a JSON value when used in a JS `if` condition. -/
def jsTruthy : JsonVal → Bool
  | .null => false
  | .bool b => b
  | .num n => n != 0
  | .str s => s != ""
  | .arr _ => true
  | .obj _ => true

def quoteChar : Char := Char.ofNat 34

def backslashChar : Char := Char.ofNat 92

def lbraceChar : Char := Char.ofNat 123

def rbraceChar : Char := Char.ofNat 125

/-- Skip JSON whitespace. -/
def skipWs : List Char → List Char
  | [] => []
  | c :: rest =>
    if c = ' ' ∨ c = '\t' ∨ c = '\n' ∨ c = '\r' then skipWs rest else c :: rest

/-- Parse the remainder of a JSON string literal (after the opening quote),
returning the decoded characters and the input after the closing quote. -/
def jsonStringRest : Nat → List Char → Option (List Char × List Char)
  | 0, _ => none
  | _ + 1, [] => none
  | fuel + 1, c :: rest =>
    if c = quoteChar then some ([], rest)
    else if c = backslashChar then
      match rest with
      | [] => none
      | e :: rest2 =>
        let dec : Option Char :=
          if e = quoteChar then some quoteChar
          else if e = backslashChar then some backslashChar
          else if e = '/' then some '/'
          else if e = 'n' then some '\n'
          else if e = 't' then some '\t'
          else if e = 'r' then some '\r'
          else if e = 'b' then some (Char.ofNat 8)
          else if e = 'f' then some (Char.ofNat 12)
          else none
        match dec with
        | none => none
        | some d => (jsonStringRest fuel rest2).map (fun p => (d :: p.1, p.2))
    else (jsonStringRest fuel rest).map (fun p => (c :: p.1, p.2))

/-- Parse a JSON integer numeral (optional minus sign, then digits). -/
def jsonNum (cs : List Char) : Option (Int × List Char) :=
  let neg : Bool := match cs with
    | c :: _ => c == '-'
    | [] => false
  let cs1 := if neg then cs.drop 1 else cs
  let ds := cs1.takeWhile (fun c => c.isDigit)
  let rest := cs1.dropWhile (fun c => c.isDigit)
  if ds.isEmpty then none
  else
    let n : Nat := ds.foldl (fun a c => a * 10 + (c.toNat - 48)) 0
    some (if neg then -(n : Int) else (n : Int), rest)

mutual

/-- Fuel-based recursive-descent embedding of `JSON.parse` on a character
list: parse one JSON value and return the remaining input. -/
def jsonVal : Nat → List Char → Option (JsonVal × List Char)
  | 0, _ => none
  | fuel + 1, cs =>
    match skipWs cs with
    | [] => none
    | c :: rest =>
      if c = lbraceChar then
        match skipWs rest with
        | c2 :: rest2 =>
          if c2 = rbraceChar then some (.obj [], rest2)
          else jsonObjLoop fuel (c2 :: rest2) []
        | [] => none
      else if c = '[' then
        match skipWs rest with
        | c2 :: rest2 =>
          if c2 = ']' then some (.arr [], rest2)
          else jsonArrLoop fuel (c2 :: rest2) []
        | [] => none
      else if c = quoteChar then
        (jsonStringRest (rest.length + 1) rest).map
          (fun p => (.str (String.mk p.1), p.2))
      else if c = 't' then
        if rest.take 3 = ['r', 'u', 'e'] then some (.bool true, rest.drop 3) else none
      else if c = 'f' then
        if rest.take 4 = ['a', 'l', 's', 'e'] then some (.bool false, rest.drop 4) else none
      else if c = 'n' then
        if rest.take 3 = ['u', 'l', 'l'] then some (.null, rest.drop 3) else none
      else if c = '-' ∨ c.isDigit then
        (jsonNum (c :: rest)).map (fun p => (.num p.1, p.2))
      else none

/-- Parse the members of a non-empty JSON object; duplicate keys are
resolved last-wins, as `JSON.parse` does. -/
def jsonObjLoop : Nat → List Char → List (String × JsonVal) →
    Option (JsonVal × List Char)
  | 0, _, _ => none
  | fuel + 1, cs, acc =>
    match skipWs cs with
    | [] => none
    | c :: rest =>
      if c = quoteChar then
        match jsonStringRest (rest.length + 1) rest with
        | none => none
        | some (keyChars, rest2) =>
          match skipWs rest2 with
          | c2 :: rest3 =>
            if c2 = ':' then
              match jsonVal fuel rest3 with
              | none => none
              | some (v, rest4) =>
                let acc' := Js.setKey (String.mk keyChars) v acc
                match skipWs rest4 with
                | c3 :: rest5 =>
                  if c3 = ',' then jsonObjLoop fuel rest5 acc'
                  else if c3 = rbraceChar then some (.obj acc', rest5)
                  else none
                | [] => none
            else none
          | [] => none
      else none

/-- Parse the elements of a non-empty JSON array. -/
def jsonArrLoop : Nat → List Char → List JsonVal → Option (JsonVal × List Char)
  | 0, _, _ => none
  | fuel + 1, cs, acc =>
    match jsonVal fuel cs with
    | none => none
    | some (v, rest) =>
      match skipWs rest with
      | c :: rest2 =>
        if c = ',' then jsonArrLoop fuel rest2 (acc ++ [v])
        else if c = ']' then some (.arr (acc ++ [v]), rest2)
        else none
      | [] => none

end

/-- Embedding of `JSON.parse`: `none` models a thrown `SyntaxError`. -/
def jsonParse (s : String) : Option JsonVal :=
  match jsonVal (s.data.length + 2) s.data with
  | none => none
  | some (v, rest) => if (skipWs rest).isEmpty then some v else none

/-! ## URL path extraction

`Storage.addRequest` groups by `new URL(data.request.url, base).pathname`.
For the origin-form request targets the parser produces (a path starting
with a slash), `pathname` is the part of the string before the first
query (`?`) or fragment (`#`) delimiter. -/

/-- Embedding of `new URL(url, base).pathname` for origin-form request
targets: everything before the first query or fragment delimiter. -/
def urlPathname (url : String) : String :=
  String.mk (url.data.takeWhile (fun c => !(c == '?' || c == '#')))

/-! ## Data model

`CapturedExchange` and `CodeReference` records, as built by
`parseHttpMessage` (src/utils/parser.js), `Storage.addRequest`
(src/unnamed/part_005 and src/data/storage.js) and the
`openSecure.addCodeReference` command (src/extension.js). -/

/-- Structured request record assembled by the parser's
`kOnHeadersComplete`/`kOnBody` callbacks.  A message with no body is
modelled with `body = ""`. -/
structure HttpRequestData where
  raw : String
  method : String
  url : String
  host : String
  version : String
  headers : List (String × String)
  body : String
deriving Repr, DecidableEq

/-- Structured response record (response branch of `parseHttpMessage`). -/
structure HttpResponseData where
  raw : String
  statusCode : Nat
  statusMessage : String
  version : String
  headers : List (String × String)
  body : String
deriving Repr, DecidableEq

/-- A parsed request/optional-response pair as handed to the Store. -/
structure IncomingData where
  request : HttpRequestData
  response : Option HttpResponseData
deriving Repr, DecidableEq

/-- Value of the `notes` field on a stored exchange.  The JS code uses,
across revisions, either a plain string or an object with one string
field (`\x7b content: '' \x7d` in part_005, `\x7b request: '' \x7d` in
src/data/storage.js); `undef` models the field being absent. -/
inductive NotesField where
  | undef
  | str (s : String)
  | obj (fields : List (String × String))
deriving Repr, DecidableEq

/-- A code reference as created by `openSecure.addCodeReference`:
`invalidReason`/`validatedAt` are absent at creation and written by the
validation commands; timestamps are the ISO strings the code stores. -/
structure CodeReference where
  filePath : String
  startLine : Nat
  endLine : Nat
  text : String
  createdAt : String
  checksum : String
  isValid : Bool
  invalidReason : Option String
  validatedAt : Option String
  gitInfo : Option (String × String × String)
deriving Repr, DecidableEq

/-- One stored capture.  `timestamp` is stamped by `addRequest` (absent on
the wire), `codeReferences` is absent until the first `addCodeReference`. -/
structure Exchange where
  request : HttpRequestData
  response : Option HttpResponseData
  timestamp : Option Nat
  notes : NotesField
  customName : Option JsonVal
  codeReferences : Option (List CodeReference)
deriving Repr

/-- Best-effort `customName` extraction in `Storage.addRequest`
(src/unnamed/part_005 lines 305-314): skipped for an empty (falsy) body,
`JSON.parse` failure is swallowed, and the `operationName` property is
used only when truthy. -/
def extractCustomName (body : String) : Option JsonVal :=
  if body = "" then none
  else
    match jsonParse body with
    | none => none
    | some (.obj fields) =>
      match Js.lookup "operationName" fields with
      | some v => if jsTruthy v then some v else none
      | none => none
    | some _ => none

/-! ## Capture Store (final revision, src/unnamed/part_005)

The hierarchical index `hosts[host].endpoints[endpoint][method]` is a nest
of JS objects.  An endpoint record holds the method buckets together with
the optional endpoint-level `notes` string (present only in the
src/data/storage.js revision's initializer and via `updateEndpointNotes`);
`Object.keys` of an endpoint record therefore counts the `notes` key. -/

namespace Storage

/-- An endpoint record: optional `notes` key plus one key per method. -/
structure EndpointRec where
  notes : Option String
  methods : List (String × List Exchange)
deriving Repr

/-- A host record: the `endpoints` object. -/
structure HostRec where
  endpoints : List (String × EndpointRec)
deriving Repr

/-- The `this.hosts` index. -/
abbrev Hosts := List (String × HostRec)

/-- Number of `Object.keys` of an endpoint record. -/
def keyCount (er : EndpointRec) : Nat :=
  er.methods.length + (if er.notes.isSome then 1 else 0)

/-- Host grouping key in `addRequest`: `data.request.host || 'unknown-host'`. -/
def hostOf (d : IncomingData) : String :=
  if d.request.host = "" then "unknown-host" else d.request.host

/-- Endpoint grouping key in `addRequest`: the URL path with query stripped. -/
def endpointOf (d : IncomingData) : String :=
  urlPathname d.request.url

/-- The exchange as stored by part_005's `addRequest`: timestamp stamped at
insertion, `notes` initialized to the object with an empty `content` string,
best-effort `customName`, and no `codeReferences` field. -/
def mkExchange (now : Nat) (d : IncomingData) : Exchange :=
  { request := d.request
    response := d.response
    timestamp := some now
    notes := .obj [("content", "")]
    customName := extractCustomName d.request.body
    codeReferences := none }

/-- `Storage.addRequest` (src/unnamed/part_005 lines 277-324): classify by
host/endpoint/method, create missing containers, stamp the timestamp with
the capture instant `now`, and append to the bucket.  The persistence and
notification side effects are I/O and carried separately. -/
def addRequest (now : Nat) (d : IncomingData) (s : Hosts) : Hosts :=
  let host := hostOf d
  let endpoint := endpointOf d
  let method := d.request.method
  let hr := (Js.lookup host s).getD { endpoints := [] }
  let er := (Js.lookup endpoint hr.endpoints).getD { notes := none, methods := [] }
  let bucket := (Js.lookup method er.methods).getD []
  Js.setKey host
    { hr with
      endpoints := Js.setKey endpoint
        { er with methods := Js.setKey method (bucket ++ [mkExchange now d]) er.methods }
        hr.endpoints }
    s

/-- Read accessor chain `getHosts()[host].endpoints[endpoint][method]`,
defaulting to the empty list when a container is missing. -/
def getBucket (s : Hosts) (h p m : String) : List Exchange :=
  match Js.lookup h s with
  | none => []
  | some hr =>
    match Js.lookup p hr.endpoints with
    | none => []
    | some er => (Js.lookup m er.methods).getD []

/-- The identity-lookup pattern of `openSecure.addCodeReference`
(src/extension.js lines 283-287): `findIndex` on the bucket comparing
timestamps (`req.timestamp.getTime() === target.getTime()`); `none`
models the JS result `-1`. -/
def findRequestIndex (bucket : List Exchange) (t : Nat) : Option Nat :=
  match bucket with
  | [] => none
  | r :: rest =>
    if r.timestamp = some t then some 0 else (findRequestIndex rest t).map (· + 1)

/-- `Storage.deleteRequest` (src/unnamed/part_005 lines 485-516): remove the
exchange at `i`, then cascade: drop the method key if its list emptied, drop
the endpoint if `Object.keys` of its record emptied, drop the host if its
`endpoints` object emptied.  Unresolvable coordinates are a no-op. -/
def deleteRequest (h p m : String) (i : Nat) (s : Hosts) : Hosts :=
  match Js.lookup h s with
  | none => s
  | some hr =>
    match Js.lookup p hr.endpoints with
    | none => s
    | some er =>
      match Js.lookup m er.methods with
      | none => s
      | some bucket =>
        match bucket.get? i with
        | none => s
        | some _ =>
          let bucket' := bucket.eraseIdx i
          let er' :=
            if bucket'.isEmpty then { er with methods := Js.eraseKey m er.methods }
            else { er with methods := Js.setKey m bucket' er.methods }
          let hr' :=
            if keyCount er' = 0 then { hr with endpoints := Js.eraseKey p hr.endpoints }
            else { hr with endpoints := Js.setKey p er' hr.endpoints }
          if hr'.endpoints.isEmpty then Js.eraseKey h s
          else Js.setKey h hr' s

/-- `Storage.addCodeReference` (src/unnamed/part_005 lines 390-422): appends
to the exchange's `codeReferences`, creating the array on first use; returns
the updated exchange, or `none` (JS `null`) when the coordinates fail to
resolve. -/
def addCodeReference (h p m : String) (i : Nat) (ref : CodeReference) (s : Hosts) :
    Option Exchange × Hosts :=
  match Js.lookup h s with
  | none => (none, s)
  | some hr =>
    match Js.lookup p hr.endpoints with
    | none => (none, s)
    | some er =>
      match Js.lookup m er.methods with
      | none => (none, s)
      | some bucket =>
        match bucket.get? i with
        | none => (none, s)
        | some ex =>
          let ex' := { ex with codeReferences := some (ex.codeReferences.getD [] ++ [ref]) }
          let bucket' := bucket.set i ex'
          (some ex',
            Js.setKey h
              { hr with
                endpoints := Js.setKey p { er with methods := Js.setKey m bucket' er.methods }
                  hr.endpoints }
              s)

/-- Invocation trace of `notifyListeners` (src/unnamed/part_005 line 361,
src/data/storage.js line 256): `changeListeners.forEach(l => l())` invokes
the callbacks in order; a callback that throws aborts the iteration, so
`true` marks a listener that was invoked (exactly once) and `false` one
that was never reached.  Each listener is represented by the outcome of
invoking it. -/
def invokedFlags : List (Except String Unit) → List Bool
  | [] => []
  | .ok _ :: rest => true :: invokedFlags rest
  | .error _ :: rest => true :: rest.map (fun _ => false)

/-- Result of `notifyListeners`: the exception of the first throwing
listener propagates to the caller; otherwise the fan-out completes. -/
def notifyListeners : List (Except String Unit) → Except String Unit
  | [] => .ok ()
  | .ok _ :: rest => notifyListeners rest
  | .error e :: _ => .error e

end Storage

/-! ## Capture Store, src/data/storage.js revision

Shares the index shape with part_005 but initializes an endpoint record
with an endpoint-level `notes` field and the stored exchange's `notes`
with a `request` field; it does no customName sniffing. -/

namespace StorageJS

/-- The exchange as stored by src/data/storage.js's `addRequest`. -/
def mkExchange (now : Nat) (d : IncomingData) : Exchange :=
  { request := d.request
    response := d.response
    timestamp := some now
    notes := .obj [("request", "")]
    customName := none
    codeReferences := none }

/-- `Storage.addRequest` (src/data/storage.js lines 170-205): as the
part_005 revision, but a missing endpoint record is created with
`notes: ''` as its first key. -/
def addRequest (now : Nat) (d : IncomingData) (s : Storage.Hosts) : Storage.Hosts :=
  let host := Storage.hostOf d
  let endpoint := Storage.endpointOf d
  let method := d.request.method
  let hr := (Js.lookup host s).getD { endpoints := [] }
  let er := (Js.lookup endpoint hr.endpoints).getD { notes := some "", methods := [] }
  let bucket := (Js.lookup method er.methods).getD []
  Js.setKey host
    { hr with
      endpoints := Js.setKey endpoint
        { er with methods := Js.setKey method (bucket ++ [mkExchange now d]) er.methods }
        hr.endpoints }
    s

end StorageJS

/-! ## Persistence and startup (src/unnamed/part_005 lines 67-189)

`loadData` reads the data file, `JSON.parse`s it and re-types the document
into the index, rehydrating timestamps; any exception in that block —
unreadable file, malformed JSON, or a document whose traversal throws —
is caught and resets the index to empty.  `initialize` loads only when
both the storage directory and the data file exist, and otherwise leaves
the store uninitialized. -/

namespace Storage

/-- The filesystem facts `initialize`/`loadData` consult: existence of the
storage directory and data file, and the file's text (`none` models
`readFileSync` throwing). -/
structure FS where
  dirExists : Bool
  fileExists : Bool
  content : Option String
deriving Repr

/-- The store's persistent-relevant state: the index and the
`initialized` flag. -/
structure Store where
  hosts : Hosts
  initialized : Bool
deriving Repr

/-- Read a string-valued property of a loaded JSON object, defaulting to
the empty string (reading an absent property does not throw in JS). -/
def strField (fields : List (String × JsonVal)) (k : String) : String :=
  match Js.lookup k fields with
  | some (.str s) => s
  | _ => ""

/-- Read a numeric property as a `Nat`, defaulting to 0. -/
def natField (fields : List (String × JsonVal)) (k : String) : Nat :=
  match Js.lookup k fields with
  | some (.num n) => n.toNat
  | _ => 0

/-- Re-type a loaded `request` object (lenient, as the JS load path is). -/
def jsonToRequestData (j : JsonVal) : HttpRequestData :=
  match j with
  | .obj fs =>
    { raw := strField fs "raw", method := strField fs "method"
      url := strField fs "url", host := strField fs "host"
      version := strField fs "version", headers := [], body := strField fs "body" }
  | _ => { raw := "", method := "", url := "", host := "", version := "", headers := [], body := "" }

/-- Re-type a loaded code reference (lenient). -/
def jsonToCodeReference (j : JsonVal) : CodeReference :=
  match j with
  | .obj fs =>
    { filePath := strField fs "filePath", startLine := natField fs "startLine"
      endLine := natField fs "endLine", text := strField fs "text"
      createdAt := strField fs "createdAt", checksum := strField fs "checksum"
      isValid := (match Js.lookup "isValid" fs with | some (.bool b) => b | _ => true)
      invalidReason := (match Js.lookup "invalidReason" fs with | some (.str s) => some s | _ => none)
      validatedAt := (match Js.lookup "validatedAt" fs with | some (.str s) => some s | _ => none)
      gitInfo := none }
  | _ =>
    { filePath := "", startLine := 0, endLine := 0, text := "", createdAt := ""
      checksum := "", isValid := true, invalidReason := none, validatedAt := none, gitInfo := none }

/-- Re-type one loaded exchange.  The JS traversal only dereferences
`request.timestamp` on each array element, so only a `null` element makes
it throw (`none` here); timestamps are rehydrated from their stored form
(ISO-date string parsing is outside the embedding: a truthy stored
timestamp is mapped through `natField`-style extraction). -/
def jsonToExchange (j : JsonVal) : Option Exchange :=
  match j with
  | .obj fs =>
    some
      { request := jsonToRequestData ((Js.lookup "request" fs).getD .null)
        response := none
        timestamp :=
          (match Js.lookup "timestamp" fs with
            | some v => if jsTruthy v then some (match v with | .num n => n.toNat | _ => 0) else none
            | none => none)
        notes :=
          (match Js.lookup "notes" fs with
            | some (.str s) => .str s
            | some (.obj nfs) =>
              .obj (nfs.filterMap (fun kv => match kv.2 with | .str s => some (kv.1, s) | _ => none))
            | _ => .undef)
        customName := Js.lookup "customName" fs
        codeReferences :=
          (match Js.lookup "codeReferences" fs with
            | some (.arr rs) => some (rs.map jsonToCodeReference)
            | _ => none) }
  | .null => none
  | _ => none

/-- Re-type one endpoint record: every key other than `notes` must hold an
array of exchange objects (anything else makes the JS `forEach` throw). -/
def jsonToEndpointRec (j : JsonVal) : Option EndpointRec :=
  match j with
  | .obj fs =>
    let methodFields := fs.filter (fun kv => kv.1 ≠ "notes")
    let methods := methodFields.mapM (fun kv =>
      match kv.2 with
      | .arr es => (es.mapM jsonToExchange).map (fun exs => (kv.1, exs))
      | _ => none)
    methods.map (fun ms =>
      { notes :=
          (match Js.lookup "notes" fs with
            | some (.str s) => some s
            | some _ => some ""
            | none => none)
        methods := ms })
  | _ => none

/-- Re-type one host record: it must carry an `endpoints` object
(`Object.keys(undefined)` throws). -/
def jsonToHostRec (j : JsonVal) : Option HostRec :=
  match j with
  | .obj fs =>
    match Js.lookup "endpoints" fs with
    | some (.obj eps) =>
      (eps.mapM (fun kv => (jsonToEndpointRec kv.2).map (fun er => (kv.1, er)))).map
        (fun l => { endpoints := l })
    | _ => none
  | _ => none

/-- Re-type the whole loaded document into the index; `none` models the
rehydration traversal throwing partway. -/
def jsonToHosts (j : JsonVal) : Option Hosts :=
  match j with
  | .obj fs => fs.mapM (fun kv => (jsonToHostRec kv.2).map (fun hr => (kv.1, hr)))
  | _ => none

/-- `Storage.loadData` (src/unnamed/part_005 lines 159-189): the whole read,
parse and rehydrate block sits in one `try`; any failure is caught and the
index is reset to empty.  It never throws to its caller. -/
def loadData (fs : FS) (s : Store) : Store :=
  match fs.content with
  | none => { s with hosts := [] }
  | some text =>
    match jsonParse text with
    | none => { s with hosts := [] }
    | some j =>
      match jsonToHosts j with
      | none => { s with hosts := [] }
      | some hs => { s with hosts := hs }

/-- `Storage.initialize` (src/unnamed/part_005 lines 67-95): when both the
storage directory and the data file exist, load and mark initialized;
otherwise the store stays uninitialized (first-run bootstrap is the
separate, explicit `createStorage`). -/
def initStorage (fs : FS) (s : Store) : Store :=
  if s.initialized then s
  else if fs.dirExists && fs.fileExists then
    { loadData fs s with initialized := true }
  else
    { s with initialized := false }

/-- Success path of `Storage.createStorage` (src/unnamed/part_005 lines
125-154): the explicit first-run bootstrap that marks the store
initialized (directory creation and the initial save are I/O). -/
def createStorage (s : Store) : Store :=
  { s with initialized := true }

/-- The server data callback registered in `activate` (src/extension.js
lines 114-129): ingestion is gated on `storage.initialized`; an
uninitialized store drops the capture (a warning is shown, nothing is
queued). -/
def serverDataCallback (now : Nat) (d : IncomingData) (s : Store) : Store :=
  if s.initialized then { s with hosts := addRequest now d s.hosts } else s

end Storage

/-! ## Message parser callback (src/utils/parser.js, final revision)

`http-parser-js` delivers the start line and the raw header name/value
sequence to `kOnHeadersComplete`; the repository's callback is what
assembles the structured record.  The `info.headers` flat array is
embedded directly as name/value pairs. -/

/-- The `info` argument of `kOnHeadersComplete` for a request. -/
structure RequestInfo where
  versionMajor : Nat
  versionMinor : Nat
  headers : List (String × String)
  method : Nat
  url : String
deriving Repr, DecidableEq

/-- `toLowerCase` on a header name, character-wise. -/
def lowerName (s : String) : String :=
  String.mk (s.data.map Char.toLower)

/-- Header assembly: names lowercased, `Object.fromEntries` deduplication
(last occurrence of a name wins, key order is first occurrence). -/
def buildHeaders (hs : List (String × String)) : List (String × String) :=
  hs.foldl (fun acc kv => Js.setKey (lowerName kv.1) kv.2 acc) []

/-- The `HTTP_METHODS` code-to-name table (src/utils/parser.js lines
112-146) with the `UNKNOWN(code)` fallback of line 169. -/
def httpMethodName (code : Nat) : String :=
  match code with
  | 0 => "DELETE"
  | 1 => "GET"
  | 2 => "HEAD"
  | 3 => "POST"
  | 4 => "PUT"
  | 5 => "CONNECT"
  | 6 => "OPTIONS"
  | 7 => "TRACE"
  | 8 => "COPY"
  | 9 => "LOCK"
  | 10 => "MKCOL"
  | 11 => "MOVE"
  | 12 => "PROPFIND"
  | 13 => "PROPPATCH"
  | 14 => "SEARCH"
  | 15 => "UNLOCK"
  | 16 => "BIND"
  | 17 => "REBIND"
  | 18 => "UNBIND"
  | 19 => "ACL"
  | 20 => "REPORT"
  | 21 => "MKACTIVITY"
  | 22 => "CHECKOUT"
  | 23 => "MERGE"
  | 24 => "M-SEARCH"
  | 25 => "NOTIFY"
  | 26 => "SUBSCRIBE"
  | 27 => "UNSUBSCRIBE"
  | 28 => "PATCH"
  | 29 => "PURGE"
  | 30 => "MKCALENDAR"
  | 31 => "LINK"
  | 32 => "UNLINK"
  | _ => "UNKNOWN(" ++ toString code ++ ")"

/-- Request branch of `parseHttpMessage` (src/utils/parser.js lines
148-186): version string, deduplicated lowercase headers, method name from
the code table, the URL as given, and `host` from the `host` header with
the empty string as fallback (`parsed.headers.host || ''`).  `body` is the
text delivered by `kOnBody` (empty when there is none). -/
def parseRequestFromInfo (raw : String) (info : RequestInfo) (body : String) :
    HttpRequestData :=
  let hdrs := buildHeaders info.headers
  { raw := raw
    method := httpMethodName info.method
    url := info.url
    host := (Js.lookup "host" hdrs).getD ""
    version := toString info.versionMajor ++ "." ++ toString info.versionMinor
    headers := hdrs
    body := body }

/-! ## Ingestion endpoint (src/server.js lines 41-60)

The POST `/burp-data` handler: the payload parse and the `dataCallback`
invocation both sit inside the `try`, before `res.status(200)`; an
exception from either one reaches the `catch` and produces the 400
response.  A thrown JS `Error` is represented by its message. -/

/-- An HTTP response from the ingestion endpoint. -/
structure ServerReply where
  status : Nat
  body : JsonVal
deriving Repr

/-- The POST `/burp-data` handler over the outcome of
`parseRequestResponse` and the outcome of invoking `dataCallback`. -/
def handleBurpData (parseResult : Except String IncomingData)
    (dataCallback : IncomingData → Except String Unit) : ServerReply :=
  match parseResult with
  | .error msg => { status := 400, body := .obj [("error", .str msg)] }
  | .ok parsed =>
    match dataCallback parsed with
    | .error msg => { status := 400, body := .obj [("error", .str msg)] }
    | .ok _ => { status := 200, body := .obj [("status", .str "success")] }

/-! ## Code-reference checksum and validation (src/extension.js)

`calculateChecksum` (lines 501-512) is the classic 32-bit rolling hash:
`hash = (hash << 5) - hash + charCode` with `hash = hash & hash` forcing a
signed 32-bit result each step, rendered with `toString(16)`. -/

/-- JS `ToInt32`: reduce an integer to the signed 32-bit range. -/
def toInt32 (n : Int) : Int :=
  let m := n % 4294967296
  if m < 2147483648 then m else m - 4294967296

/-- One step of the rolling hash: `(hash << 5) - hash + char`, then the
`hash & hash` truncation.  `hash << 5` itself operates on int32. -/
def checksumStep (h : Int) (c : Nat) : Int :=
  toInt32 (toInt32 (h * 32) - h + (c : Int))

/-- JS `Number.prototype.toString(16)` on an int32 value. -/
def jsHexString (n : Int) : String :=
  if n < 0 then "-" ++ String.mk (Nat.toDigits 16 n.natAbs)
  else String.mk (Nat.toDigits 16 n.toNat)

/-- `calculateChecksum` (src/extension.js lines 501-512).  `charCodeAt`
UTF-16 code units coincide with `Char.toNat` on the ASCII snippets at
issue. -/
def calculateChecksum (text : String) : String :=
  if text.length = 0 then jsHexString 0
  else jsHexString (text.data.foldl (fun h c => checksumStep h c.toNat) 0)

/-- A code reference as created by `openSecure.addCodeReference`
(src/extension.js lines 255-264): checksummed at creation, valid, with no
`invalidReason`/`validatedAt` yet. -/
def mkCodeReference (filePath : String) (startLine endLine : Nat) (text : String)
    (createdAt : String) (gitInfo : Option (String × String × String)) : CodeReference :=
  { filePath := filePath, startLine := startLine, endLine := endLine, text := text
    createdAt := createdAt, checksum := calculateChecksum text, isValid := true
    invalidReason := none, validatedAt := none, gitInfo := gitInfo }

/-- `markReferenceAsInvalid` (src/extension.js lines 523-564) restricted to
the reference it rewrites: flags invalid, records the reason, stamps
`validatedAt` with the validation instant. -/
def markInvalid (ref : CodeReference) (reason : String) (now : String) : CodeReference :=
  { ref with isValid := false, invalidReason := some reason, validatedAt := some now }

/-- `markReferenceAsValid` (src/extension.js lines 574-612): flags valid,
writes `null` into `invalidReason` (embedded as `none`), stamps
`validatedAt`. -/
def markValid (ref : CodeReference) (now : String) : CodeReference :=
  { ref with isValid := true, invalidReason := none, validatedAt := some now }

/-- Text of the document range from (startLine, 0) to (endLine, end of
line), as `document.getText` returns it for a file given by its lines. -/
def textAtRange (lines : List String) (startLine endLine : Nat) : String :=
  String.intercalate "\n" ((lines.drop startLine).take (endLine - startLine + 1))

/-- The `openSecure.validateCodeReference` command (src/extension.js lines
406-494) over the current file content: missing file and out-of-range line
checks first, then the checksum comparison; every branch stamps
`validatedAt` through the mark functions. -/
def validateCodeReference (ref : CodeReference) (file : Option (List String))
    (now : String) : CodeReference :=
  match file with
  | none => markInvalid ref "File no longer exists" now
  | some lines =>
    if ref.startLine ≥ lines.length ∨ ref.endLine ≥ lines.length then
      markInvalid ref "Referenced lines no longer exist" now
    else if calculateChecksum (textAtRange lines ref.startLine ref.endLine) ≠ ref.checksum then
      markInvalid ref "Code has been modified" now
    else
      markValid ref now

/-! ## Store lemmas -/

namespace Storage

theorem getBucket_addRequest (now : Nat) (d : IncomingData) (s : Hosts) :
    getBucket (addRequest now d s) (hostOf d) (endpointOf d) d.request.method =
      getBucket s (hostOf d) (endpointOf d) d.request.method ++ [mkExchange now d] := by
  unfold addRequest getBucket
  rcases hh : Js.lookup (hostOf d) s with _ | hr
  · simp [hh, Js.lookup_setKey_self, Js.lookup]
  · rcases hp : Js.lookup (endpointOf d) hr.endpoints with _ | er
    · simp [hh, hp, Js.lookup_setKey_self, Js.lookup]
    · rcases hm : Js.lookup d.request.method er.methods with _ | bucket
      · simp [hh, hp, hm, Js.lookup_setKey_self]
      · simp [hh, hp, hm, Js.lookup_setKey_self]

/-- Folding `addRequest` over captures that all classify into the same
host/endpoint/method bucket appends their stamped exchanges in arrival
order. -/
theorem getBucket_foldl_addRequest (h p m : String) (l : List (Nat × IncomingData))
    (hkey : ∀ x ∈ l, hostOf x.2 = h ∧ endpointOf x.2 = p ∧ x.2.request.method = m)
    (s : Hosts) :
    getBucket (l.foldl (fun acc x => addRequest x.1 x.2 acc) s) h p m =
      getBucket s h p m ++ l.map (fun x => mkExchange x.1 x.2) := by
  induction l generalizing s with
  | nil => simp
  | cons x rest ih =>
    obtain ⟨hh, hp, hm⟩ := hkey x (List.mem_cons_self x rest)
    have hrest : ∀ y ∈ rest, hostOf y.2 = h ∧ endpointOf y.2 = p ∧ y.2.request.method = m :=
      fun y hy => hkey y (List.mem_cons_of_mem x hy)
    have hstep : getBucket (addRequest x.1 x.2 s) h p m =
        getBucket s h p m ++ [mkExchange x.1 x.2] := by
      have := getBucket_addRequest x.1 x.2 s
      rwa [hh, hp, hm] at this
    simp [List.foldl_cons, ih hrest, hstep]

/-- In a bucket whose timestamps are pairwise distinct, the timestamp
`findIndex` locates each exchange at its own index. -/
theorem findRequestIndex_get (xs : List Exchange)
    (hnd : (xs.map Exchange.timestamp).Nodup) (i : Nat) (hi : i < xs.length)
    (t : Nat) (ht : (xs.get ⟨i, hi⟩).timestamp = some t) :
    findRequestIndex xs t = some i := by
  induction xs generalizing i with
  | nil => exact absurd hi (by simp)
  | cons x rest ih =>
    rw [List.map_cons, List.nodup_cons] at hnd
    cases i with
    | zero =>
      simp only [List.get] at ht
      simp [findRequestIndex, ht]
    | succ j =>
      have hj : j < rest.length := by simpa using hi
      simp only [List.get] at ht
      have hmem : some t ∈ rest.map Exchange.timestamp := by
        rw [← ht]
        exact List.mem_map_of_mem Exchange.timestamp (rest.get_mem j hj)
      have hne : x.timestamp ≠ some t := fun hx => hnd.1 (hx ▸ hmem)
      simp [findRequestIndex, hne, ih hnd.2 j hj ht]

end Storage

/-! ## Claims -/

/-- Sample parsed request used by concrete witnesses. -/
def sampleRequest (host url method : String) : HttpRequestData :=
  { raw := "", method := method, url := url, host := host, version := "1.1"
    headers := [], body := "" }

/-- Sample capture payload used by concrete witnesses. -/
def sampleData (host url method : String) : IncomingData :=
  { request := sampleRequest host url method, response := none }

/-- The timestamp `findIndex` always resolves to the first bucket index
carrying the looked-up timestamp, which is at or before any index whose
entry carries it. -/
theorem findRequestIndex_first (xs : List Exchange) (t : Nat) :
    ∀ i (hi : i < xs.length), (xs.get ⟨i, hi⟩).timestamp = some t →
      ∃ j, ∃ hj : j < xs.length, Storage.findRequestIndex xs t = some j ∧ j ≤ i ∧
        (xs.get ⟨j, hj⟩).timestamp = some t := by
  induction xs with
  | nil =>
    intro i hi
    exact absurd hi (by simp)
  | cons x rest ih =>
    intro i hi ht
    by_cases hx : x.timestamp = some t
    · exact ⟨0, by simp, by simp [Storage.findRequestIndex, hx], Nat.zero_le i, hx⟩
    · cases i with
      | zero => exact absurd ht hx
      | succ k =>
        have hk : k < rest.length := by simpa using hi
        obtain ⟨j, hj, heq, hle, hts⟩ := ih k hk ht
        refine ⟨j + 1, by simpa using hj, ?_, Nat.succ_le_succ hle, hts⟩
        simp [Storage.findRequestIndex, hx, heq]

/-- C1 counterexample: `addRequest` does not enforce timestamp uniqueness.
Two captures stamped with the same instant (the code stores `new Date()`,
which has millisecond resolution and no collision check) land in the same
bucket with equal timestamps — the bucket is not duplicate-free — and the
timestamp `findIndex` resolves both entries to index 0: looking up the
entry at index 1 by its own timestamp returns the other exchange. -/
theorem c1_timestamp_collision_counterexample :
    (Storage.getBucket
      (Storage.addRequest 1 (sampleData "api.example.com" "/users?a=2" "GET")
        (Storage.addRequest 1 (sampleData "api.example.com" "/users?a=1" "GET") []))
      "api.example.com" "/users" "GET").map Exchange.timestamp = [some 1, some 1] ∧
    ¬ ((Storage.getBucket
      (Storage.addRequest 1 (sampleData "api.example.com" "/users?a=2" "GET")
        (Storage.addRequest 1 (sampleData "api.example.com" "/users?a=1" "GET") []))
      "api.example.com" "/users" "GET").map Exchange.timestamp).Nodup ∧
    Storage.findRequestIndex
      (Storage.getBucket
        (Storage.addRequest 1 (sampleData "api.example.com" "/users?a=2" "GET")
          (Storage.addRequest 1 (sampleData "api.example.com" "/users?a=1" "GET") []))
        "api.example.com" "/users" "GET") 1 = some 0 ∧
    ((Storage.getBucket
      (Storage.addRequest 1 (sampleData "api.example.com" "/users?a=2" "GET")
        (Storage.addRequest 1 (sampleData "api.example.com" "/users?a=1" "GET") []))
      "api.example.com" "/users" "GET").get? 1).map (fun e => e.request.url) =
      some "/users?a=2" ∧
    ((Storage.getBucket
      (Storage.addRequest 1 (sampleData "api.example.com" "/users?a=2" "GET")
        (Storage.addRequest 1 (sampleData "api.example.com" "/users?a=1" "GET") []))
      "api.example.com" "/users" "GET").get? 0).map (fun e => e.request.url) =
      some "/users?a=1" := by
  exact ⟨rfl, by decide, rfl, rfl, rfl⟩

/-- C1 amended: after `addRequest` is called once per element of `l` (each
capture classifying into the same host/endpoint/method bucket), the bucket
has one entry per call and the entries carry exactly the insertion-time
timestamps stamped by the store.  The identity lookup always returns the
first index carrying the looked-up timestamp.  The code does not enforce
timestamp uniqueness: pairwise-distinct entries and an identity lookup
that returns each entry's own index are guaranteed exactly when the
capture instants are pairwise distinct; captures stamped within the same
instant share a timestamp and all resolve to the first such index. -/
theorem c1_timestamp_stamping_and_lookup (h p m : String)
    (l : List (Nat × IncomingData))
    (hkey : ∀ x ∈ l, Storage.hostOf x.2 = h ∧ Storage.endpointOf x.2 = p ∧
      x.2.request.method = m)
    (bucket : List Exchange)
    (hb : bucket = Storage.getBucket
      (l.foldl (fun acc x => Storage.addRequest x.1 x.2 acc) []) h p m) :
    bucket.length = l.length ∧
    bucket.map Exchange.timestamp = l.map (fun x => some x.1) ∧
    (∀ i (hi : i < bucket.length) (t : Nat),
      (bucket.get ⟨i, hi⟩).timestamp = some t →
        ∃ j, ∃ hj : j < bucket.length, Storage.findRequestIndex bucket t = some j ∧
          j ≤ i ∧ (bucket.get ⟨j, hj⟩).timestamp = some t) ∧
    ((l.map Prod.fst).Nodup →
      (bucket.map Exchange.timestamp).Nodup ∧
      ∀ i (hi : i < bucket.length) (t : Nat),
        (bucket.get ⟨i, hi⟩).timestamp = some t →
          Storage.findRequestIndex bucket t = some i) := by
  have hfold := Storage.getBucket_foldl_addRequest h p m l hkey []
  have hempty : Storage.getBucket ([] : Storage.Hosts) h p m = [] := rfl
  rw [hempty, List.nil_append] at hfold
  have hts : bucket.map Exchange.timestamp = l.map (fun x => some x.1) := by
    rw [hb, hfold, List.map_map]
    rfl
  refine ⟨?_, hts, ?_, ?_⟩
  · rw [hb, hfold]
    simp
  · intro i hi t ht
    exact findRequestIndex_first bucket t i hi ht
  · intro hnodup
    have hnd : (bucket.map Exchange.timestamp).Nodup := by
      rw [hts]
      have : l.map (fun x => some x.1) =
          (l.map Prod.fst).map (fun n => (some n : Option Nat)) := by
        rw [List.map_map]
        rfl
      rw [this]
      exact hnodup.map (fun a b hab => Option.some.inj hab)
    exact ⟨hnd, fun i hi t ht => Storage.findRequestIndex_get bucket hnd i hi t ht⟩

theorem c1_timestamp_stamping_and_lookup_witness :
    (∀ x ∈ [((1 : Nat), sampleData "api.example.com" "/users" "GET"),
            (2, sampleData "api.example.com" "/users" "GET")],
        Storage.hostOf x.2 = "api.example.com" ∧
          Storage.endpointOf x.2 = "/users" ∧ x.2.request.method = "GET") ∧
    ([((1 : Nat), sampleData "api.example.com" "/users" "GET"),
      (2, sampleData "api.example.com" "/users" "GET")].map Prod.fst).Nodup ∧
    (Storage.getBucket
      ([((1 : Nat), sampleData "api.example.com" "/users" "GET"),
        (2, sampleData "api.example.com" "/users" "GET")].foldl
        (fun acc x => Storage.addRequest x.1 x.2 acc) [])
      "api.example.com" "/users" "GET").length = 2 ∧
    Storage.findRequestIndex
      (Storage.getBucket
        ([((1 : Nat), sampleData "api.example.com" "/users" "GET"),
          (2, sampleData "api.example.com" "/users" "GET")].foldl
          (fun acc x => Storage.addRequest x.1 x.2 acc) [])
        "api.example.com" "/users" "GET") 2 = some 1 := by
  have hkey : ∀ x ∈ [((1 : Nat), sampleData "api.example.com" "/users" "GET"),
      (2, sampleData "api.example.com" "/users" "GET")],
      Storage.hostOf x.2 = "api.example.com" ∧
        Storage.endpointOf x.2 = "/users" ∧ x.2.request.method = "GET" := by decide
  have hnd : ([((1 : Nat), sampleData "api.example.com" "/users" "GET"),
      (2, sampleData "api.example.com" "/users" "GET")].map Prod.fst).Nodup := by decide
  have main := c1_timestamp_stamping_and_lookup "api.example.com" "/users" "GET"
    _ hkey _ rfl
  refine ⟨hkey, hnd, main.1, ?_⟩
  have hi : 1 < (Storage.getBucket
      ([((1 : Nat), sampleData "api.example.com" "/users" "GET"),
        (2, sampleData "api.example.com" "/users" "GET")].foldl
        (fun acc x => Storage.addRequest x.1 x.2 acc) [])
      "api.example.com" "/users" "GET").length := by
    rw [main.1]
    decide
  exact (main.2.2.2 hnd).2 1 hi 2 rfl

/-- C2 counterexample: starting from one host with one endpoint with one
method with one exchange, where the endpoint record carries the
endpoint-level `notes` field (exactly what `addRequest` of
src/data/storage.js creates), `deleteRequest` does NOT leave the host
absent: `Object.keys` of the endpoint record still counts the `notes` key,
so the cascade stops and the host survives in `getHosts()`. -/
theorem c2_cascade_counterexample :
    Js.lookup "api.example.com"
      (Storage.deleteRequest "api.example.com" "/users" "GET" 0
        (StorageJS.addRequest 1 (sampleData "api.example.com" "/users" "GET") [])) ≠
      none := by
  have h : (Js.lookup "api.example.com"
      (Storage.deleteRequest "api.example.com" "/users" "GET" 0
        (StorageJS.addRequest 1 (sampleData "api.example.com" "/users" "GET") []))).isSome =
      true := rfl
  intro hc
  rw [hc] at h
  exact Bool.noConfusion h

/-- C2 amended: for any single capture, deleting it cascades the empty
bucket, endpoint and host away — when the endpoint record carries no
endpoint-level `notes` key, which is how part_005's `addRequest`
initializes it.  When the endpoint record does carry the `notes` key (the
src/data/storage.js initializer), the emptied method bucket is removed but
the endpoint, and with it the host, are retained. -/
theorem c2_cascade_cleanup (now : Nat) (d : IncomingData) :
    Storage.deleteRequest (Storage.hostOf d) (Storage.endpointOf d) d.request.method 0
      (Storage.addRequest now d []) = ([] : Storage.Hosts) ∧
    Js.lookup (Storage.hostOf d)
      (Storage.deleteRequest (Storage.hostOf d) (Storage.endpointOf d) d.request.method 0
        (StorageJS.addRequest now d [])) =
      some { endpoints := [(Storage.endpointOf d, { notes := some "", methods := [] })] } := by
  constructor
  · simp [Storage.addRequest, Storage.deleteRequest, Js.lookup, Js.setKey, Js.eraseKey,
      Storage.keyCount, List.eraseIdx]
  · simp [StorageJS.addRequest, Storage.deleteRequest, Js.lookup, Js.setKey, Js.eraseKey,
      Storage.keyCount, List.eraseIdx]

/-- C3 counterexample: a payload that parses successfully but whose
`dataCallback` invocation throws is answered with 400 — not 200 — because
the callback runs inside the handler's `try`, before `res.status(200)`. -/
theorem c3_response_counterexample :
    (handleBurpData (.ok (sampleData "api.example.com" "/users" "GET"))
      (fun _ => .error "boom")).status = 400 ∧
    (handleBurpData (.ok (sampleData "api.example.com" "/users" "GET"))
      (fun _ => .error "boom")).status ≠ 200 := by
  exact ⟨rfl, by decide⟩

/-- C3 amended: the POST /burp-data handler responds 400 with the error
message on parse failure, 200 with a success body when the parse succeeds
and the downstream callback returns normally, and 400 with the thrown
message when the callback throws.  (Storage failures the store catches
internally — its saveData wraps its own I/O in try/catch — do not throw
into the handler and therefore still yield 200.) -/
theorem c3_burp_data_response (msg : String) (d : IncomingData)
    (cb : IncomingData → Except String Unit) :
    handleBurpData (.error msg) cb =
      { status := 400, body := .obj [("error", .str msg)] } ∧
    (cb d = .ok () →
      handleBurpData (.ok d) cb =
        { status := 200, body := .obj [("status", .str "success")] }) ∧
    (∀ e, cb d = .error e →
      handleBurpData (.ok d) cb =
        { status := 400, body := .obj [("error", .str e)] }) := by
  refine ⟨rfl, ?_, ?_⟩
  · intro h
    simp [handleBurpData, h]
  · intro e h
    simp [handleBurpData, h]

theorem c3_burp_data_response_witness :
    ((fun (_ : IncomingData) => (Except.ok () : Except String Unit))
        (sampleData "api.example.com" "/users" "GET") = Except.ok ()) ∧
    handleBurpData (.ok (sampleData "api.example.com" "/users" "GET"))
      (fun _ => (Except.ok () : Except String Unit)) =
      { status := 200, body := .obj [("status", .str "success")] } :=
  ⟨rfl,
    (c3_burp_data_response "bad" (sampleData "api.example.com" "/users" "GET")
      (fun _ => Except.ok ())).2.1 rfl⟩

/-- Lists of characters all satisfying a predicate pass through
`takeWhile` over an append. -/
theorem takeWhile_append_all {α : Type} (pred : α → Bool) (xs ys : List α)
    (h : ∀ c ∈ xs, pred c = true) :
    (xs ++ ys).takeWhile pred = xs ++ ys.takeWhile pred := by
  induction xs with
  | nil => simp
  | cons x rest ih =>
    have hx := h x (List.mem_cons_self x rest)
    have hrest : ∀ c ∈ rest, pred c = true := fun c hc => h c (List.mem_cons_of_mem x hc)
    simp [List.takeWhile, hx, ih hrest]

/-- Appending a query string does not change the extracted pathname, as
long as the path itself contains no query/fragment delimiter. -/
theorem urlPathname_strip_query (path q : String)
    (hpath : ∀ c ∈ path.data, (!(c == '?' || c == '#')) = true) :
    urlPathname (path ++ "?" ++ q) = path := by
  unfold urlPathname
  have hdata : (path ++ "?" ++ q).data = path.data ++ ('?' :: q.data) := by
    simp [String.data_append]
  rw [hdata, takeWhile_append_all _ path.data _ hpath]
  have : List.takeWhile (fun c => !(c == '?' || c == '#')) ('?' :: q.data) = [] := by
    simp [List.takeWhile]
  rw [this, List.append_nil]

/-- C4: two exchanges with the same (non-empty) host, the same URL path and
different query strings are appended, in arrival order, to the same
`endpoints[path][method]` bucket: `addRequest` strips the query when
grouping. -/
theorem c4_query_stripped_grouping (h m path q1 q2 : String) (n1 n2 : Nat)
    (d1 d2 : IncomingData)
    (hhost : h ≠ "")
    (hpath : ∀ c ∈ path.data, (!(c == '?' || c == '#')) = true)
    (hh1 : d1.request.host = h) (hh2 : d2.request.host = h)
    (hm1 : d1.request.method = m) (hm2 : d2.request.method = m)
    (hu1 : d1.request.url = path ++ "?" ++ q1)
    (hu2 : d2.request.url = path ++ "?" ++ q2) :
    Storage.getBucket (Storage.addRequest n2 d2 (Storage.addRequest n1 d1 [])) h path m =
      [Storage.mkExchange n1 d1, Storage.mkExchange n2 d2] := by
  have hkey : ∀ x ∈ [(n1, d1), (n2, d2)],
      Storage.hostOf x.2 = h ∧ Storage.endpointOf x.2 = path ∧
        x.2.request.method = m := by
    intro x hx
    have hcases : x = (n1, d1) ∨ x = (n2, d2) := by simpa using hx
    rcases hcases with hcase | hcase <;> subst hcase
    · exact ⟨by simp [Storage.hostOf, hh1, hhost],
        by simp [Storage.endpointOf, hu1, urlPathname_strip_query path q1 hpath], hm1⟩
    · exact ⟨by simp [Storage.hostOf, hh2, hhost],
        by simp [Storage.endpointOf, hu2, urlPathname_strip_query path q2 hpath], hm2⟩
  have hfold := Storage.getBucket_foldl_addRequest h path m [(n1, d1), (n2, d2)] hkey []
  simpa using hfold

theorem c4_query_stripped_grouping_witness :
    ("api.example.com" : String) ≠ "" ∧
    (∀ c ∈ ("/api/users" : String).data, (!(c == '?' || c == '#')) = true) ∧
    Storage.getBucket
      (Storage.addRequest 2 (sampleData "api.example.com" "/api/users?page=2" "GET")
        (Storage.addRequest 1 (sampleData "api.example.com" "/api/users?page=1" "GET") []))
      "api.example.com" "/api/users" "GET" =
      [Storage.mkExchange 1 (sampleData "api.example.com" "/api/users?page=1" "GET"),
       Storage.mkExchange 2 (sampleData "api.example.com" "/api/users?page=2" "GET")] := by
  refine ⟨by decide, by decide, ?_⟩
  exact c4_query_stripped_grouping "api.example.com" "GET" "/api/users" "page=1" "page=2"
    1 2 _ _ (by decide) (by decide) rfl rfl rfl rfl rfl rfl

/-- A validation run over an existing file with a valid line range and a
differing checksum marks the reference invalid with the drift reason. -/
theorem validate_invalid_of_diff (ref : CodeReference) (lines : List String) (now : String)
    (hra : ref.startLine < lines.length) (hrb : ref.endLine < lines.length)
    (hdiff : calculateChecksum (textAtRange lines ref.startLine ref.endLine) ≠ ref.checksum) :
    validateCodeReference ref (some lines) now = markInvalid ref "Code has been modified" now := by
  have hc : ¬(ref.startLine ≥ lines.length ∨ ref.endLine ≥ lines.length) := by omega
  show (if ref.startLine ≥ lines.length ∨ ref.endLine ≥ lines.length then
      markInvalid ref "Referenced lines no longer exist" now
    else if calculateChecksum (textAtRange lines ref.startLine ref.endLine) ≠ ref.checksum then
      markInvalid ref "Code has been modified" now
    else markValid ref now) = markInvalid ref "Code has been modified" now
  rw [if_neg hc, if_pos hdiff]

/-- A validation run over an existing file with a valid line range and a
matching checksum marks the reference valid. -/
theorem validate_valid_of_same (ref : CodeReference) (lines : List String) (now : String)
    (hra : ref.startLine < lines.length) (hrb : ref.endLine < lines.length)
    (hsame : calculateChecksum (textAtRange lines ref.startLine ref.endLine) = ref.checksum) :
    validateCodeReference ref (some lines) now = markValid ref now := by
  have hc : ¬(ref.startLine ≥ lines.length ∨ ref.endLine ≥ lines.length) := by omega
  show (if ref.startLine ≥ lines.length ∨ ref.endLine ≥ lines.length then
      markInvalid ref "Referenced lines no longer exist" now
    else if calculateChecksum (textAtRange lines ref.startLine ref.endLine) ≠ ref.checksum then
      markInvalid ref "Code has been modified" now
    else markValid ref now) = markValid ref now
  rw [if_neg hc, if_neg (by simpa using hsame)]

/-- C5: validating a reference whose referenced text has drifted (checksum
at the same line range differs) flips `isValid` to false with the
non-empty "Code has been modified" reason; re-validating the result
against the original unchanged text flips it back to true and clears the
reason; both validation attempts stamp `validatedAt`. -/
theorem c5_checksum_drift_validation (ref : CodeReference) (lines0 lines1 : List String)
    (now1 now2 : String)
    (h0 : calculateChecksum (textAtRange lines0 ref.startLine ref.endLine) = ref.checksum)
    (hr0a : ref.startLine < lines0.length) (hr0b : ref.endLine < lines0.length)
    (hr1a : ref.startLine < lines1.length) (hr1b : ref.endLine < lines1.length)
    (hdiff : calculateChecksum (textAtRange lines1 ref.startLine ref.endLine) ≠ ref.checksum) :
    (validateCodeReference ref (some lines1) now1).isValid = false ∧
    (validateCodeReference ref (some lines1) now1).invalidReason = some "Code has been modified" ∧
    (validateCodeReference ref (some lines1) now1).validatedAt = some now1 ∧
    (validateCodeReference (validateCodeReference ref (some lines1) now1)
      (some lines0) now2).isValid = true ∧
    (validateCodeReference (validateCodeReference ref (some lines1) now1)
      (some lines0) now2).invalidReason = none ∧
    (validateCodeReference (validateCodeReference ref (some lines1) now1)
      (some lines0) now2).validatedAt = some now2 := by
  have r1def := validate_invalid_of_diff ref lines1 now1 hr1a hr1b hdiff
  have r2def : validateCodeReference (validateCodeReference ref (some lines1) now1)
      (some lines0) now2 =
      markValid (markInvalid ref "Code has been modified" now1) now2 := by
    rw [r1def]
    exact validate_valid_of_same _ lines0 now2 hr0a hr0b h0
  refine ⟨?_, ?_, ?_, ?_, ?_, ?_⟩
  · rw [r1def]
    rfl
  · rw [r1def]
    rfl
  · rw [r1def]
    rfl
  · rw [r2def]
    rfl
  · rw [r2def]
    rfl
  · rw [r2def]
    rfl

set_option maxRecDepth 4000 in
theorem c5_checksum_drift_validation_witness :
    calculateChecksum
        (textAtRange ["const x = 1;"] 0 0) =
      (mkCodeReference "src/app.js" 0 0 "const x = 1;" "2024-01-01" none).checksum ∧
    calculateChecksum
        (textAtRange ["const x = 2;"] 0 0) ≠
      (mkCodeReference "src/app.js" 0 0 "const x = 1;" "2024-01-01" none).checksum ∧
    (validateCodeReference
      (mkCodeReference "src/app.js" 0 0 "const x = 1;" "2024-01-01" none)
      (some ["const x = 2;"]) "t1").isValid = false ∧
    (validateCodeReference
      (validateCodeReference
        (mkCodeReference "src/app.js" 0 0 "const x = 1;" "2024-01-01" none)
        (some ["const x = 2;"]) "t1")
      (some ["const x = 1;"]) "t2").isValid = true ∧
    (validateCodeReference
      (validateCodeReference
        (mkCodeReference "src/app.js" 0 0 "const x = 1;" "2024-01-01" none)
        (some ["const x = 2;"]) "t1")
      (some ["const x = 1;"]) "t2").invalidReason = none := by
  have h0 : calculateChecksum (textAtRange ["const x = 1;"] 0 0) =
      (mkCodeReference "src/app.js" 0 0 "const x = 1;" "2024-01-01" none).checksum := by decide
  have hdiff : calculateChecksum (textAtRange ["const x = 2;"] 0 0) ≠
      (mkCodeReference "src/app.js" 0 0 "const x = 1;" "2024-01-01" none).checksum := by decide
  have main := c5_checksum_drift_validation
    (mkCodeReference "src/app.js" 0 0 "const x = 1;" "2024-01-01" none)
    ["const x = 1;"] ["const x = 2;"] "t1" "t2" h0
    (by decide) (by decide) (by decide) (by decide) hdiff
  exact ⟨h0, hdiff, main.1, main.2.2.2.1, main.2.2.2.2.1⟩

/-- C6 counterexample: with two registered listeners where the first
throws, `notifyListeners`' bare `forEach` aborts: the invocation trace is
`[true, false]` — the second listener is never invoked — refuting the
claim that every listener is invoked exactly once per notification. -/
theorem c6_listener_isolation_counterexample :
    Storage.invokedFlags [Except.error "boom", Except.ok ()] = [true, false] ∧
    Storage.invokedFlags [Except.error "boom", Except.ok ()] ≠ [true, true] := by
  exact ⟨rfl, by decide⟩

/-- When every listener returns normally, the fan-out invokes each exactly
once. -/
theorem invokedFlags_all_ok (ls : List (Except String Unit))
    (h : ∀ x ∈ ls, x = Except.ok ()) :
    Storage.invokedFlags ls = ls.map (fun _ => true) := by
  induction ls with
  | nil => rfl
  | cons x rest ih =>
    have hx := h x (List.mem_cons_self x rest)
    subst hx
    simp [Storage.invokedFlags, ih (fun y hy => h y (List.mem_cons_of_mem _ hy))]

/-- C6 amended: `notifyListeners` invokes listeners in order until the
first one that throws; that listener's exception propagates to the caller
and every listener after it is not invoked at all.  Only when no listener
throws is every listener invoked exactly once. -/
theorem c6_listener_fanout (e : String) (pre post : List (Except String Unit))
    (hpre : ∀ x ∈ pre, x = Except.ok ()) :
    Storage.invokedFlags (pre ++ Except.error e :: post) =
      pre.map (fun _ => true) ++ true :: post.map (fun _ => false) ∧
    Storage.notifyListeners (pre ++ Except.error e :: post) = Except.error e ∧
    (∀ ls : List (Except String Unit), (∀ x ∈ ls, x = Except.ok ()) →
      Storage.invokedFlags ls = ls.map (fun _ => true)) := by
  refine ⟨?_, ?_, fun ls h => invokedFlags_all_ok ls h⟩
  · induction pre with
    | nil => simp [Storage.invokedFlags]
    | cons x rest ih =>
      have hx := hpre x (List.mem_cons_self x rest)
      subst hx
      simp [Storage.invokedFlags,
        ih (fun y hy => hpre y (List.mem_cons_of_mem _ hy))]
  · induction pre with
    | nil => simp [Storage.notifyListeners]
    | cons x rest ih =>
      have hx := hpre x (List.mem_cons_self x rest)
      subst hx
      simp [Storage.notifyListeners,
        ih (fun y hy => hpre y (List.mem_cons_of_mem _ hy))]

theorem c6_listener_fanout_witness :
    (∀ x ∈ [(Except.ok () : Except String Unit)], x = Except.ok ()) ∧
    Storage.invokedFlags
      ([(Except.ok () : Except String Unit)] ++ Except.error "boom" :: [Except.ok ()]) =
      [true, true, false] ∧
    Storage.notifyListeners
      ([(Except.ok () : Except String Unit)] ++ Except.error "boom" :: [Except.ok ()]) =
      Except.error "boom" := by
  have hpre : ∀ x ∈ [(Except.ok () : Except String Unit)], x = Except.ok () :=
    fun x hx => List.mem_singleton.mp hx
  have main := c6_listener_fanout "boom" [Except.ok ()] [Except.ok ()] hpre
  exact ⟨hpre, main.1, main.2.1⟩

/-- C7: when the storage directory or the data file is absent at startup,
`initialize` leaves the store uninitialized; the server data callback then
drops every capture (the state, index included, is unchanged — nothing is
queued) until the explicit `createStorage` bootstrap marks the store
initialized. -/
theorem c7_uninitialized_refuses (fs : Storage.FS) (s0 : Storage.Store)
    (hs0 : s0.initialized = false)
    (habs : fs.dirExists = false ∨ fs.fileExists = false) :
    (Storage.initStorage fs s0).initialized = false ∧
    (∀ now d, Storage.serverDataCallback now d (Storage.initStorage fs s0) =
      Storage.initStorage fs s0) ∧
    (Storage.createStorage (Storage.initStorage fs s0)).initialized = true := by
  have hcond : (fs.dirExists && fs.fileExists) = false := by
    rcases habs with h | h <;> simp [h]
  have hinit : Storage.initStorage fs s0 = { s0 with initialized := false } := by
    unfold Storage.initStorage
    rw [hs0, hcond]
    simp
  refine ⟨by rw [hinit], ?_, rfl⟩
  intro now d
  rw [hinit]
  unfold Storage.serverDataCallback
  simp

theorem c7_uninitialized_refuses_witness :
    (({ hosts := [], initialized := false } : Storage.Store).initialized = false) ∧
    (Storage.initStorage { dirExists := false, fileExists := false, content := none }
      { hosts := [], initialized := false }).initialized = false ∧
    Storage.serverDataCallback 1 (sampleData "api.example.com" "/users" "GET")
      (Storage.initStorage { dirExists := false, fileExists := false, content := none }
        { hosts := [], initialized := false }) =
      Storage.initStorage { dirExists := false, fileExists := false, content := none }
        { hosts := [], initialized := false } := by
  have main := c7_uninitialized_refuses
    { dirExists := false, fileExists := false, content := none }
    { hosts := [], initialized := false } rfl (Or.inl rfl)
  exact ⟨rfl, main.1, main.2.1 1 (sampleData "api.example.com" "/users" "GET")⟩

/-- C8 counterexample: parsing a request with no Host header makes the
parser set `host` to the empty string (`parsed.headers.host || ''`), not
to the `unknown-host` sentinel the claim attributes to the parser. -/
theorem c8_parser_host_counterexample :
    (parseRequestFromInfo "GET /ping HTTP/1.1"
      { versionMajor := 1, versionMinor := 1, headers := [], method := 1, url := "/ping" }
      "").host = "" ∧
    (parseRequestFromInfo "GET /ping HTTP/1.1"
      { versionMajor := 1, versionMinor := 1, headers := [], method := 1, url := "/ping" }
      "").host ≠ "unknown-host" := by
  exact ⟨rfl, by decide⟩

/-- C8 amended: the parser derives `host` from the (lowercased,
deduplicated) `host` header when present and otherwise sets the empty
string; the `unknown-host` sentinel is applied downstream by the Store's
`addRequest` (`data.request.host || 'unknown-host'`), so a capture parsed
without a Host header is grouped under `unknown-host`. -/
theorem c8_host_derivation (raw body : String) (info : RequestInfo) :
    (Js.lookup "host" (buildHeaders info.headers) = none →
      (parseRequestFromInfo raw info body).host = "" ∧
      Storage.hostOf { request := parseRequestFromInfo raw info body, response := none } =
        "unknown-host") ∧
    (∀ v, Js.lookup "host" (buildHeaders info.headers) = some v →
      (parseRequestFromInfo raw info body).host = v) := by
  constructor
  · intro hnone
    have hh : (parseRequestFromInfo raw info body).host = "" := by
      simp [parseRequestFromInfo, hnone]
    exact ⟨hh, by simp [Storage.hostOf, hh]⟩
  · intro v hv
    simp [parseRequestFromInfo, hv]

theorem c8_host_derivation_witness :
    Js.lookup "host"
      (buildHeaders [("Host", "a.com")]) = some "a.com" ∧
    (parseRequestFromInfo "GET /ping HTTP/1.1"
      { versionMajor := 1, versionMinor := 1, headers := [("Host", "a.com")],
        method := 1, url := "/ping" } "").host = "a.com" ∧
    Js.lookup "host"
      (buildHeaders ([] : List (String × String))) = none ∧
    Storage.hostOf
      { request := parseRequestFromInfo "GET /ping HTTP/1.1"
          { versionMajor := 1, versionMinor := 1, headers := [], method := 1, url := "/ping" }
          "",
        response := none } = "unknown-host" := by
  refine ⟨by decide, ?_, rfl, ?_⟩
  · exact (c8_host_derivation "GET /ping HTTP/1.1" ""
      { versionMajor := 1, versionMinor := 1, headers := [("Host", "a.com")],
        method := 1, url := "/ping" }).2 "a.com" (by decide)
  · exact ((c8_host_derivation "GET /ping HTTP/1.1" ""
      { versionMajor := 1, versionMinor := 1, headers := [], method := 1,
        url := "/ping" }).1 rfl).2

/-- Sample capture payload with a request body, for witnesses. -/
def sampleBodyData (host url method body : String) : IncomingData :=
  { request := { raw := "", method := method, url := url, host := host
                 version := "1.1", headers := [], body := body }
    response := none }

/-- C9 counterexample: the exchange stored by one concrete `addRequest`
has `notes` equal to the `\x7b content: '' \x7d` object — not the empty
string — and no `codeReferences` field at all — not the empty list. -/
theorem c9_creation_counterexample :
    (Storage.mkExchange 1 (sampleData "api.example.com" "/users" "GET")).notes ≠
      NotesField.str "" ∧
    (Storage.mkExchange 1 (sampleData "api.example.com" "/users" "GET")).codeReferences ≠
      some [] ∧
    Storage.getBucket
      (Storage.addRequest 1 (sampleData "api.example.com" "/users" "GET") [])
      "api.example.com" "/users" "GET" =
      [Storage.mkExchange 1 (sampleData "api.example.com" "/users" "GET")] := by
  exact ⟨by decide, by decide, rfl⟩

/-- C9 amended: at creation the exchange's `notes` field is the object
with an empty `content` string (not the empty string itself) and its
`codeReferences` field is absent (not the empty list) — the array is
created on the first `addCodeReference`; `customName` is set from a
truthy `operationName` property when the body parses as a JSON object,
and JSON parse failure (or an empty body) is silently skipped. -/
theorem c9_creation_fields (now : Nat) (d : IncomingData) (ref : CodeReference) :
    (Storage.mkExchange now d).notes = NotesField.obj [("content", "")] ∧
    (Storage.mkExchange now d).codeReferences = none ∧
    (d.request.body = "" → (Storage.mkExchange now d).customName = none) ∧
    (jsonParse d.request.body = none → (Storage.mkExchange now d).customName = none) ∧
    (∀ fields v, jsonParse d.request.body = some (JsonVal.obj fields) →
      Js.lookup "operationName" fields = some v → jsTruthy v = true →
      d.request.body ≠ "" →
      (Storage.mkExchange now d).customName = some v) ∧
    (Storage.addCodeReference (Storage.hostOf d) (Storage.endpointOf d)
        d.request.method 0 ref (Storage.addRequest now d [])).1 =
      some { Storage.mkExchange now d with codeReferences := some [ref] } := by
  refine ⟨rfl, rfl, ?_, ?_, ?_, ?_⟩
  · intro h
    simp [Storage.mkExchange, extractCustomName, h]
  · intro h
    by_cases hb : d.request.body = ""
    · simp [Storage.mkExchange, extractCustomName, hb]
    · simp [Storage.mkExchange, extractCustomName, hb, h]
  · intro fields v hp hl ht hb
    simp [Storage.mkExchange, extractCustomName, hb, hp, hl, ht]
  · simp [Storage.addRequest, Storage.addCodeReference, Js.lookup, Js.setKey,
      Storage.mkExchange]

theorem c9_creation_fields_witness :
    jsonParse "\x7b\"operationName\":\"getUser\"\x7d" =
      some (JsonVal.obj [("operationName", JsonVal.str "getUser")]) ∧
    (Storage.mkExchange 1
      (sampleBodyData "api.example.com" "/users" "POST"
        "\x7b\"operationName\":\"getUser\"\x7d")).customName =
      some (JsonVal.str "getUser") ∧
    (Storage.mkExchange 1
      (sampleBodyData "api.example.com" "/users" "POST"
        "\x7b\"operationName\":\"getUser\"\x7d")).notes =
      NotesField.obj [("content", "")] ∧
    (Storage.mkExchange 1
      (sampleBodyData "api.example.com" "/users" "POST"
        "\x7b\"operationName\":\"getUser\"\x7d")).codeReferences = none := by
  have main := c9_creation_fields 1
    (sampleBodyData "api.example.com" "/users" "POST"
      "\x7b\"operationName\":\"getUser\"\x7d")
    (mkCodeReference "src/app.js" 0 0 "x" "t" none)
  refine ⟨rfl, ?_, main.1, main.2.1⟩
  exact main.2.2.2.2.1 [("operationName", JsonVal.str "getUser")]
    (JsonVal.str "getUser") rfl rfl rfl (by decide)

/-- C10: when the data file exists but its content cannot be read or does
not parse as JSON, `loadData` swallows the error and resets the index to
empty, and `initialize` still completes with the store marked
initialized. -/
theorem c10_load_failure_resets (fs : Storage.FS) (s0 : Storage.Store)
    (hs0 : s0.initialized = false)
    (hdir : fs.dirExists = true) (hfile : fs.fileExists = true)
    (hbad : fs.content = none ∨ ∃ text, fs.content = some text ∧ jsonParse text = none) :
    (Storage.initStorage fs s0).hosts = [] ∧
    (Storage.initStorage fs s0).initialized = true := by
  have hinit : Storage.initStorage fs s0 =
      { Storage.loadData fs s0 with initialized := true } := by
    unfold Storage.initStorage
    rw [hs0, hdir, hfile]
    simp
  rw [hinit]
  have hload : (Storage.loadData fs s0).hosts = [] := by
    unfold Storage.loadData
    rcases hbad with h | ⟨text, hc, hp⟩
    · rw [h]
    · rw [hc]
      simp [hp]
  exact ⟨hload, rfl⟩

theorem c10_load_failure_resets_witness :
    jsonParse "not json" = none ∧
    (Storage.initStorage { dirExists := true, fileExists := true, content := some "not json" }
      { hosts := [], initialized := false }).hosts = [] ∧
    (Storage.initStorage { dirExists := true, fileExists := true, content := some "not json" }
      { hosts := [], initialized := false }).initialized = true := by
  have main := c10_load_failure_resets
    { dirExists := true, fileExists := true, content := some "not json" }
    { hosts := [], initialized := false } rfl rfl rfl
    (Or.inr ⟨"not json", rfl, rfl⟩)
  exact ⟨rfl, main.1, main.2⟩
